import Mathlib

/-!
Verification of the UUID codec core of the uuid-playground repository:
the decoder analyzeUUID, the timestamp formatter formatTimestamp and the
generator dispatch generateUuid, shallowly embedded from the TypeScript
source (App.tsx).  JavaScript strings are modelled as Lean strings,
JavaScript numbers on the paths exercised here are exact integers
(all values involved stay far below 2^53, where IEEE doubles are exact),
and BigInt arithmetic is modelled by Int.
-/

namespace UUIDPlayground

/-- Character class of the validation regex [0-9a-fA-F]. -/
def isHexDigit (c : Char) : Bool :=
  ('0' ≤ c && c ≤ '9') || ('a' ≤ c && c ≤ 'f') || ('A' ≤ c && c ≤ 'F')

/-- Numeric value of a single hex digit, as produced by parseInt(c, 16)
on a one-character string consisting of a hex digit.  Non-hex characters
map to 0; every call site is guarded by the hex-digit validation, so the
default is unreachable there. -/
def hexCharVal (c : Char) : Nat :=
  if '0' ≤ c && c ≤ '9' then c.toNat - '0'.toNat
  else if 'a' ≤ c && c ≤ 'f' then c.toNat - 'a'.toNat + 10
  else if 'A' ≤ c && c ≤ 'F' then c.toNat - 'A'.toNat + 10
  else 0

/-- The global hyphen replace of the decoder: remove every hyphen
character from the input. -/
def stripHyphens (s : String) : String :=
  String.mk (s.data.filter (fun c => c ≠ '-'))

/-- The test /^[0-9a-fA-F]\x7b32\x7d$/.test(s): exactly 32 characters,
each a hex digit. -/
def isValidHex32 (s : String) : Bool :=
  s.data.length = 32 && s.data.all isHexDigit

/-- JavaScript String.prototype.substring(a, b): character indices are
clamped to the string length and swapped when out of order, then the
characters of the half-open range are returned. -/
def jsSubstring (s : String) (a b : Nat) : String :=
  let n := s.data.length
  let x := min (min a n) (min b n)
  let y := max (min a n) (min b n)
  String.mk ((s.data.drop x).take (y - x))

/-- The slice hex[a:b] the specification speaks about: the characters
at the 0-indexed positions a to b-1 of s. -/
def hexSlice (s : String) (a b : Nat) : String :=
  String.mk ((s.data.drop a).take (b - a))

/-- The UUIDAnalysis record of the decoder.  Optional TypeScript fields
that a branch leaves unassigned are modelled as none. -/
structure UUIDAnalysis where
  isValid : Bool
  version : Option Nat := none
  variant : Option String := none
  timestamp : Option String := none
  clockSeq : Option String := none
  node : Option String := none
  randomBits : Option String := none
  hexString : String
deriving DecidableEq, Repr

/-- The decoder analyzeUUID, embedded from the source: strip hyphens,
validate 32 hex digits, read the version nibble at index 12 and the
variant nibble at index 16, classify the variant by bit masks, then
branch on the version for the field extraction. -/
def analyzeUUID (uuid : String) : UUIDAnalysis :=
  let cleanUuid := stripHyphens uuid
  if ¬ isValidHex32 cleanUuid then
    { isValid := false, hexString := uuid }
  else
    let version := hexCharVal (cleanUuid.data.getD 12 '0')
    let variantBits := hexCharVal (cleanUuid.data.getD 16 '0')
    let variant :=
      if variantBits &&& 0x8 = 0 then "Reserved (NCS)"
      else if variantBits &&& 0xc = 0x8 then "RFC 4122"
      else if variantBits &&& 0xe = 0xc then "Microsoft"
      else "Reserved"
    let analysis : UUIDAnalysis :=
      { isValid := true, version := some version, variant := some variant,
        hexString := cleanUuid }
    if version = 1 then
      let timeLow := jsSubstring cleanUuid 0 8
      let timeMid := jsSubstring cleanUuid 8 12
      let timeHi := jsSubstring cleanUuid 12 16
      let clockSeqHi := jsSubstring cleanUuid 16 18
      let clockSeqLow := jsSubstring cleanUuid 18 20
      let node := jsSubstring cleanUuid 20 32
      { analysis with
        timestamp := some (timeLow ++ "-" ++ timeMid ++ "-" ++ timeHi),
        clockSeq := some (clockSeqHi ++ clockSeqLow),
        node := some node }
    else if version = 4 then
      { analysis with randomBits := some cleanUuid }
    else if version = 7 then
      let timestampMs := jsSubstring cleanUuid 0 12
      let randomA := jsSubstring cleanUuid 12 16
      let randomB := jsSubstring cleanUuid 16 32
      { analysis with
        timestamp := some timestampMs,
        randomBits := some (randomA ++ randomB) }
    else analysis

/-- ASCII whitespace skipped by parseInt (space, tab, line feed,
carriage return, vertical tab, form feed). -/
def isJsSpace (c : Char) : Bool :=
  c = ' ' || c = '\t' || c = '\n' || c = '\r' ||
    c = Char.ofNat 11 || c = Char.ofNat 12

/-- The value of a big-endian string of hex digits, the accumulation
parseInt performs over the digit run it accepts. -/
def hexListVal (l : List Char) : Nat :=
  l.foldl (fun a c => 16 * a + hexCharVal c) 0

/-- JavaScript parseInt(s, 16): skip leading whitespace, read an optional
sign, drop an optional 0x or 0X, then read the longest run of hex digits;
the result is NaN (none) when that run is empty. -/
def jsParseIntHex (s : String) : Option Int :=
  let cs := s.data.dropWhile isJsSpace
  let sign : Int := if cs.head? = some '-' then -1 else 1
  let cs1 := if cs.head? = some '-' ∨ cs.head? = some '+' then cs.tail else cs
  let cs2 :=
    if cs1.head? = some '0' ∧ (cs1.tail.head? = some 'x' ∨ cs1.tail.head? = some 'X')
    then cs1.tail.tail else cs1
  let digits := cs2.takeWhile isHexDigit
  if digits.isEmpty then none
  else some (sign * (hexListVal digits : Int))

/-- The JavaScript expression (p & 0x0fff) where p is a parseInt result:
NaN converts to the 32-bit integer 0, any other value is reduced to 32
bits two's complement; masking with 0x0fff then keeps the low 12 bits,
which does not depend on the sign bit. -/
def jsAndMask0xfff (p : Option Int) : Nat :=
  match p with
  | none => 0
  | some n => (n.emod 4294967296).toNat &&& 0xfff

/-- BigInt(p) for a parseInt result p: throws a RangeError (none) on NaN. -/
def jsBigIntOfNumber (p : Option Int) : Option Int :=
  p

/-- Proleptic Gregorian civil date from a day count relative to
1970-01-01 (the days-from-civil inverse used by ECMAScript Date):
returns (year, month, day). -/
def civilFromDays (z0 : Int) : Int × Nat × Nat :=
  let z := z0 + 719468
  let era := z.ediv 146097
  let doe := (z - era * 146097).toNat
  let yoe := (doe - doe / 1460 + doe / 36524 - doe / 146096) / 365
  let y := (yoe : Int) + era * 400
  let doy := doe - (365 * yoe + yoe / 4 - yoe / 100)
  let mp := (5 * doy + 2) / 153
  let d := doy - (153 * mp + 2) / 5 + 1
  let m := if mp < 10 then mp + 3 else mp - 9
  (if m ≤ 2 then y + 1 else y, m, d)

/-- Left-pad the decimal rendering of n with zeros to width w. -/
def padZeros (w : Nat) (n : Nat) : String :=
  let s := toString n
  String.mk (List.replicate (w - s.length) '0') ++ s

/-- ECMAScript Date.prototype.toISOString on an integral millisecond
time value within the Date range: UTC calendar fields rendered as
YYYY-MM-DDTHH:mm:ss.sssZ, with a six-digit signed expanded year outside
0..9999. -/
def jsToISOString (ms : Int) : String :=
  let d := ms.ediv 86400000
  let msod := (ms.emod 86400000).toNat
  let ymd := civilFromDays d
  let y := ymd.1
  let yearStr :=
    if 0 ≤ y ∧ y ≤ 9999 then padZeros 4 y.toNat
    else if y < 0 then "-" ++ padZeros 6 (-y).toNat
    else "+" ++ padZeros 6 y.toNat
  yearStr ++ "-" ++ padZeros 2 ymd.2.1 ++ "-" ++ padZeros 2 ymd.2.2 ++ "T" ++
    padZeros 2 (msod / 3600000) ++ ":" ++ padZeros 2 (msod / 60000 % 60) ++ ":" ++
    padZeros 2 (msod / 1000 % 60) ++ "." ++ padZeros 3 (msod % 1000) ++ "Z"

/-- The largest millisecond value accepted by ECMAScript Date. -/
def jsDateRange : Nat := 8640000000000000

/-- new Date(ms).toISOString(): throws a RangeError (none) when the time
value is outside the Date range, otherwise renders the ISO string. -/
def jsDateToISO (ms : Int) : Option String :=
  if ms.natAbs ≤ jsDateRange then some (jsToISOString ms) else none

/-- The body of the try block of formatTimestamp.  none models a thrown
exception; some none models falling through the block without returning;
some (some s) models returning the string s.  On the version-1 path the
conversion Number(unixTimestamp) is exact: the inputs of the 60-bit
recombination are bounded by 2^12, 2^16 and 2^32, so the quotient stays
far below 2^53 and also inside the Date range. -/
def formatTimestampTry (timestamp : String) (version : Int) : Option (Option String) :=
  if version = 1 then
    let timeLow := jsSubstring timestamp 0 8
    let timeMid := jsSubstring timestamp 9 13
    let timeHi := jsSubstring timestamp 14 18
    let timeHiOnly : Nat := jsAndMask0xfff (jsParseIntHex timeHi)
    match jsBigIntOfNumber (jsParseIntHex timeMid), jsBigIntOfNumber (jsParseIntHex timeLow) with
    | some mid, some low =>
      let fullTimestamp : Int :=
        Int.lor (Int.lor ((timeHiOnly : Int) <<< 48) (mid <<< 32)) low
      let unixTimestamp := (fullTimestamp - 122192928000000000).tdiv 10000
      match jsDateToISO unixTimestamp with
      | some s => some (some s)
      | none => none
    | _, _ => none
  else if version = 7 then
    match jsParseIntHex timestamp with
    | some v =>
      match jsDateToISO v with
      | some s => some (some s)
      | none => none
    | none => none
  else
    some none

/-- The timestamp formatter formatTimestamp: the try block either
returns an ISO string, falls through to the final "Unknown format"
return, or throws, which the catch maps to "Invalid timestamp". -/
def formatTimestamp (timestamp : String) (version : Int) : String :=
  match formatTimestampTry timestamp version with
  | none => "Invalid timestamp"
  | some none => "Unknown format"
  | some (some s) => s

/-- The uuid library generators, one oracle value per generator for the
call being modelled. -/
structure UuidLib where
  v1 : String
  v4 : String
  v7 : String
deriving DecidableEq

/-- The generator dispatch generateUuid: switch on the version tag with
a default case falling back to the version-4 generator. -/
def generateUuid (lib : UuidLib) (version : String) : String :=
  if version = "1" then lib.v1
  else if version = "4" then lib.v4
  else if version = "7" then lib.v7
  else lib.v4

/-! ## Helper lemmas -/

theorem stripHyphens_data (s : String) :
    (stripHyphens s).data = s.data.filter (fun c => c ≠ '-') := rfl

theorem isValidHex32_iff (s : String) :
    isValidHex32 s = true ↔
      (s.data.length = 32 ∧ ∀ c ∈ s.data, isHexDigit c = true) := by
  simp [isValidHex32, List.all_eq_true]

theorem analyzeUUID_isValid (s : String) :
    (analyzeUUID s).isValid = isValidHex32 (stripHyphens s) := by
  by_cases h : isValidHex32 (stripHyphens s) = true <;>
    simp [analyzeUUID, h] <;> split_ifs <;> rfl

theorem analyzeUUID_variant (s : String)
    (h : isValidHex32 (stripHyphens s) = true) :
    (analyzeUUID s).variant =
      some (if hexCharVal ((stripHyphens s).data.getD 16 '0') &&& 8 = 0 then "Reserved (NCS)"
        else if hexCharVal ((stripHyphens s).data.getD 16 '0') &&& 12 = 8 then "RFC 4122"
        else if hexCharVal ((stripHyphens s).data.getD 16 '0') &&& 14 = 12 then "Microsoft"
        else "Reserved") := by
  simp [analyzeUUID, h]
  split_ifs <;> rfl

theorem hexCharVal_lt (c : Char) : hexCharVal c < 16 := by
  unfold hexCharVal
  split_ifs with h1 h2 h3
  · simp only [Bool.and_eq_true, decide_eq_true_eq] at h1
    have hu : c.toNat ≤ 57 := h1.2
    show c.toNat - 48 < 16
    omega
  · simp only [Bool.and_eq_true, decide_eq_true_eq] at h2
    have hu : c.toNat ≤ 102 := h2.2
    show c.toNat - 97 + 10 < 16
    omega
  · simp only [Bool.and_eq_true, decide_eq_true_eq] at h3
    have hu : c.toNat ≤ 70 := h3.2
    show c.toNat - 65 + 10 < 16
    omega
  · exact Nat.zero_lt_succ 15

theorem strMk_append (xs ys : List Char) :
    String.mk xs ++ String.mk ys = String.mk (xs ++ ys) := rfl

theorem jsSubstring_eq_hexSlice (s : String) (a b : Nat) (hab : a ≤ b)
    (hb : b ≤ s.data.length) : jsSubstring s a b = hexSlice s a b := by
  unfold jsSubstring hexSlice
  simp only [min_eq_left (le_trans hab hb), min_eq_left hb,
    min_eq_left hab, max_eq_right hab]

theorem hexSlice_append (s : String) (a m b : Nat) (h1 : a ≤ m) (h2 : m ≤ b) :
    hexSlice s a m ++ hexSlice s m b = hexSlice s a b := by
  unfold hexSlice
  rw [strMk_append]
  congr 1
  have hba : b - a = (m - a) + (b - m) := by omega
  rw [hba, List.take_add, List.drop_drop]
  have ham : a + (m - a) = m := by omega
  rw [ham]

/-! ## Claims -/

/-- C1: analyze never fails; its isValid field is true exactly when the
input with all hyphens removed is 32 characters, each a hex digit, and
when isValid is false the record carries the original unstripped input
as hexString and no version, variant or version-specific fields. -/
theorem c1_analyze_validity (s : String) :
    ((analyzeUUID s).isValid = true ↔
      ((s.data.filter (fun c => c ≠ '-')).length = 32 ∧
        ∀ c ∈ s.data.filter (fun c => c ≠ '-'), isHexDigit c = true)) ∧
    ((analyzeUUID s).isValid = false →
      analyzeUUID s =
        { isValid := false, version := none, variant := none,
          timestamp := none, clockSeq := none, node := none,
          randomBits := none, hexString := s }) := by
  constructor
  · rw [analyzeUUID_isValid, ← stripHyphens_data, isValidHex32_iff]
  · intro h
    rw [analyzeUUID_isValid] at h
    simp [analyzeUUID, h]

/-- C1 witness: the invalid-path behavior at concrete inputs, including
the "not-a-uuid" scenario and the 31- and 33-hex-digit boundaries. -/
theorem c1_analyze_validity_witness :
    analyzeUUID "not-a-uuid" =
      { isValid := false, version := none, variant := none,
        timestamp := none, clockSeq := none, node := none,
        randomBits := none, hexString := "not-a-uuid" } ∧
    (analyzeUUID "0123456789abcdef0123456789abcde").isValid = false ∧
    (analyzeUUID "0123456789abcdef0123456789abcdef0").isValid = false ∧
    (analyzeUUID "0123456789abcdef0123456789abcdeg").isValid = false :=
  ⟨(c1_analyze_validity "not-a-uuid").2 (by decide),
   by decide, by decide, by decide⟩

/-- C2 counterexample: on the invalid input "not-a-uuid" the decoder
keeps the original unstripped text, so hexString differs from the
hyphen-stripped form of the input. -/
theorem c2_counterexample :
    (analyzeUUID "not-a-uuid").hexString = "not-a-uuid" ∧
    stripHyphens "not-a-uuid" = "notauuid" ∧
    (analyzeUUID "not-a-uuid").hexString ≠ stripHyphens "not-a-uuid" := by
  decide

/-- C2 amended: hexString is the hyphen-stripped input on the valid path
and the original unstripped input on the invalid path. -/
theorem c2_hexString (s : String) :
    (analyzeUUID s).hexString =
      if (analyzeUUID s).isValid then stripHyphens s else s := by
  rw [analyzeUUID_isValid]
  by_cases h : isValidHex32 (stripHyphens s) = true <;>
    simp [analyzeUUID, h] <;> split_ifs <;> rfl

/-- C9: a version tag outside 1, 4, 7 does not signal an error; the
dispatch falls through to the version-4 generator. -/
theorem c9_generate_default (lib : UuidLib) (version : String)
    (h1 : version ≠ "1") (h4 : version ≠ "4") (h7 : version ≠ "7") :
    generateUuid lib version = generateUuid lib "4" := by
  simp [generateUuid, h1, h4, h7]

/-- C9 witness: the dispatch at the concrete unrecognized tag "9". -/
theorem c9_generate_default_witness :
    generateUuid ⟨"u1", "u4", "u7"⟩ "9" = generateUuid ⟨"u1", "u4", "u7"⟩ "4" :=
  c9_generate_default ⟨"u1", "u4", "u7"⟩ "9" (by decide) (by decide) (by decide)

/-- C10: hyphen placement is never validated; two inputs with equal
hyphen-stripped forms that pass validation decode to identical records. -/
theorem c10_hyphen_insensitive (s t : String)
    (hst : stripHyphens s = stripHyphens t)
    (hv : (analyzeUUID s).isValid = true) :
    analyzeUUID s = analyzeUUID t := by
  rw [analyzeUUID_isValid] at hv
  have hvt : isValidHex32 (stripHyphens t) = true := hst ▸ hv
  simp [analyzeUUID, hst, hvt]

/-- C10 witness: the canonically hyphenated and the hyphen-free forms of
one 128-bit value decode identically. -/
theorem c10_hyphen_insensitive_witness :
    analyzeUUID "82a7a5a1-c77c-4288-87e3-d2c3c3fbc339" =
      analyzeUUID "82a7a5a1c77c428887e3d2c3c3fbc339" :=
  c10_hyphen_insensitive _ _ (by decide) (by decide)

/-- C3 counterexample: on a valid input whose variant nibble is 0xe the
decoder reports the string "Reserved", not "Reserved (Future)". -/
theorem c3_counterexample :
    (analyzeUUID "0000000000000000e000000000000000").isValid = true ∧
    hexCharVal ((stripHyphens "0000000000000000e000000000000000").data.getD 16 '0') = 14 ∧
    (analyzeUUID "0000000000000000e000000000000000").variant = some "Reserved" ∧
    (analyzeUUID "0000000000000000e000000000000000").variant ≠ some "Reserved (Future)" := by
  decide

/-- C3 amended: for every valid input the variant is classified from the
nibble at position 16 by range: 0x0 to 0x7 gives "Reserved (NCS)", 0x8
to 0xb gives "RFC 4122", 0xc to 0xd gives "Microsoft", and 0xe to 0xf
gives the string "Reserved" (the source labels the reserved-for-future
range plain "Reserved"). -/
theorem c3_variant_ranges (s : String) (hv : (analyzeUUID s).isValid = true) :
    (analyzeUUID s).variant =
      some (if hexCharVal ((stripHyphens s).data.getD 16 '0') ≤ 7 then "Reserved (NCS)"
        else if hexCharVal ((stripHyphens s).data.getD 16 '0') ≤ 11 then "RFC 4122"
        else if hexCharVal ((stripHyphens s).data.getD 16 '0') ≤ 13 then "Microsoft"
        else "Reserved") := by
  rw [analyzeUUID_isValid] at hv
  have h16 := hexCharVal_lt ((stripHyphens s).data.getD 16 '0')
  rw [analyzeUUID_variant s hv]
  congr 1
  generalize hexCharVal ((stripHyphens s).data.getD 16 '0') = n at h16 ⊢
  interval_cases n <;> decide

/-- C3 witness: the amended classification at a concrete valid input
whose variant nibble is 8. -/
theorem c3_variant_ranges_witness :
    (analyzeUUID "82a7a5a1-c77c-4288-87e3-d2c3c3fbc339").variant = some "RFC 4122" := by
  have h := c3_variant_ranges "82a7a5a1-c77c-4288-87e3-d2c3c3fbc339" (by decide)
  rw [h]
  decide

/-- C4: for every valid input with version nibble 1 the decoder stores
the hyphen-joined time-low, time-mid, time-hi groups as the timestamp,
hex[16:20] as the clock sequence and hex[20:32] as the node. -/
theorem c4_v1_fields (s : String) (hv : (analyzeUUID s).isValid = true)
    (h12 : hexCharVal ((stripHyphens s).data.getD 12 '0') = 1) :
    (analyzeUUID s).timestamp =
      some (hexSlice (stripHyphens s) 0 8 ++ "-" ++ hexSlice (stripHyphens s) 8 12 ++
        "-" ++ hexSlice (stripHyphens s) 12 16) ∧
    (analyzeUUID s).clockSeq = some (hexSlice (stripHyphens s) 16 20) ∧
    (analyzeUUID s).node = some (hexSlice (stripHyphens s) 20 32) := by
  rw [analyzeUUID_isValid] at hv
  have hlen : (stripHyphens s).data.length = 32 := ((isValidHex32_iff _).mp hv).1
  have hsub : ∀ a b : Nat, a ≤ b → b ≤ 32 →
      jsSubstring (stripHyphens s) a b = hexSlice (stripHyphens s) a b :=
    fun a b hab hb => jsSubstring_eq_hexSlice _ a b hab (by omega)
  simp only [List.getD_eq_getElem?_getD] at h12
  simp [analyzeUUID, hv, h12, hsub 0 8 (by omega) (by omega),
    hsub 8 12 (by omega) (by omega), hsub 12 16 (by omega) (by omega),
    hsub 16 18 (by omega) (by omega), hsub 18 20 (by omega) (by omega),
    hsub 20 32 (by omega) (by omega),
    hexSlice_append (stripHyphens s) 16 18 20 (by omega) (by omega)]

/-- C4 witness: the version-1 field extraction at a concrete input. -/
theorem c4_v1_fields_witness :
    (analyzeUUID "4a784000-4bc4-11eb-8000-000000000000").timestamp =
      some "4a784000-4bc4-11eb" ∧
    (analyzeUUID "4a784000-4bc4-11eb-8000-000000000000").clockSeq = some "8000" ∧
    (analyzeUUID "4a784000-4bc4-11eb-8000-000000000000").node =
      some "000000000000" := by
  have h := c4_v1_fields "4a784000-4bc4-11eb-8000-000000000000" (by decide) (by decide)
  exact ⟨h.1.trans (by decide), h.2.1.trans (by decide), h.2.2.trans (by decide)⟩

/-- C5: for every valid input with version nibble 7 the decoder stores
hex[0:12] as the timestamp and the concatenation of hex[12:16] and
hex[16:32] as the random bits, and no clock sequence or node. -/
theorem c5_v7_fields (s : String) (hv : (analyzeUUID s).isValid = true)
    (h12 : hexCharVal ((stripHyphens s).data.getD 12 '0') = 7) :
    (analyzeUUID s).timestamp = some (hexSlice (stripHyphens s) 0 12) ∧
    (analyzeUUID s).randomBits =
      some (hexSlice (stripHyphens s) 12 16 ++ hexSlice (stripHyphens s) 16 32) ∧
    (analyzeUUID s).clockSeq = none ∧
    (analyzeUUID s).node = none := by
  rw [analyzeUUID_isValid] at hv
  have hlen : (stripHyphens s).data.length = 32 := ((isValidHex32_iff _).mp hv).1
  have hsub : ∀ a b : Nat, a ≤ b → b ≤ 32 →
      jsSubstring (stripHyphens s) a b = hexSlice (stripHyphens s) a b :=
    fun a b hab hb => jsSubstring_eq_hexSlice _ a b hab (by omega)
  simp only [List.getD_eq_getElem?_getD] at h12
  simp [analyzeUUID, hv, h12, hsub 0 12 (by omega) (by omega),
    hsub 12 16 (by omega) (by omega), hsub 16 32 (by omega) (by omega)]

/-- C5 witness: the version-7 field extraction at a concrete input. -/
theorem c5_v7_fields_witness :
    (analyzeUUID "0123456789ab7def8000000000000000").timestamp =
      some "0123456789ab" ∧
    (analyzeUUID "0123456789ab7def8000000000000000").randomBits =
      some "7def8000000000000000" ∧
    (analyzeUUID "0123456789ab7def8000000000000000").clockSeq = none ∧
    (analyzeUUID "0123456789ab7def8000000000000000").node = none := by
  have h := c5_v7_fields "0123456789ab7def8000000000000000" (by decide) (by decide)
  exact ⟨h.1.trans (by decide), h.2.1.trans (by decide), h.2.2.1, h.2.2.2⟩

/-- C8: for every valid input with version nibble 4 the decoder stores
the whole 32-digit stripped string as the random bits and no timestamp,
clock sequence or node. -/
theorem c8_v4_fields (s : String) (hv : (analyzeUUID s).isValid = true)
    (h12 : hexCharVal ((stripHyphens s).data.getD 12 '0') = 4) :
    (analyzeUUID s).randomBits = some (stripHyphens s) ∧
    (analyzeUUID s).timestamp = none ∧
    (analyzeUUID s).clockSeq = none ∧
    (analyzeUUID s).node = none := by
  rw [analyzeUUID_isValid] at hv
  simp only [List.getD_eq_getElem?_getD] at h12
  simp [analyzeUUID, hv, h12]

/-- C8 witness: the concrete scenario of the specification, a canonical
version-4 UUID. -/
theorem c8_v4_fields_witness :
    (analyzeUUID "82a7a5a1-c77c-4288-87e3-d2c3c3fbc339").isValid = true ∧
    (analyzeUUID "82a7a5a1-c77c-4288-87e3-d2c3c3fbc339").version = some 4 ∧
    (analyzeUUID "82a7a5a1-c77c-4288-87e3-d2c3c3fbc339").variant = some "RFC 4122" ∧
    (analyzeUUID "82a7a5a1-c77c-4288-87e3-d2c3c3fbc339").randomBits =
      some "82a7a5a1c77c428887e3d2c3c3fbc339" := by
  have h := c8_v4_fields "82a7a5a1-c77c-4288-87e3-d2c3c3fbc339" (by decide) (by decide)
  exact ⟨by decide, by decide, by decide, h.1.trans (by decide)⟩

theorem formatTimestampTry_ok (raw : String) (v : Int) (s : String)
    (h : formatTimestampTry raw v = some (some s)) :
    ∃ ms : Int, ms.natAbs ≤ jsDateRange ∧ s = jsToISOString ms := by
  simp only [formatTimestampTry] at h
  split_ifs at h
  · split at h
    · split at h
      · rename_i u hds
        unfold jsDateToISO at hds
        split_ifs at hds with hrange
        exact ⟨_, hrange, by simp_all⟩
      · simp at h
    · simp at h
  · split at h
    · split at h
      · rename_i u hds
        unfold jsDateToISO at hds
        split_ifs at hds with hrange
        exact ⟨_, hrange, by simp_all⟩
      · simp at h
    · simp at h
  · simp at h

/-- C7: formatTimestamp never raises: its result is always either a
rendered ISO instant or one of the two sentinel strings; a thrown
exception inside the try block yields "Invalid timestamp", and every
version other than 1 and 7 yields "Unknown format". -/
theorem c7_format_sentinels (raw : String) (version : Int) :
    (version ≠ 1 → version ≠ 7 → formatTimestamp raw version = "Unknown format") ∧
    (formatTimestampTry raw version = none →
      formatTimestamp raw version = "Invalid timestamp") ∧
    (formatTimestamp raw version = "Invalid timestamp" ∨
      formatTimestamp raw version = "Unknown format" ∨
      ∃ ms : Int, ms.natAbs ≤ jsDateRange ∧
        formatTimestamp raw version = jsToISOString ms) := by
  refine ⟨fun h1 h7 => ?_, fun herr => ?_, ?_⟩
  · simp [formatTimestamp, formatTimestampTry, h1, h7]
  · simp [formatTimestamp, herr]
  · rcases h : formatTimestampTry raw version with _ | _ | s
    · simp [formatTimestamp, h]
    · simp [formatTimestamp, h]
    · obtain ⟨ms, hr, rfl⟩ := formatTimestampTry_ok raw version s h
      exact Or.inr (Or.inr ⟨ms, hr, by simp [formatTimestamp, h]⟩)

/-- C7 witness: a version outside 1 and 7 yields the sentinel, and a
malformed version-1 raw string yields the other sentinel. -/
theorem c7_format_sentinels_witness :
    formatTimestamp "deadbeef" 3 = "Unknown format" ∧
    formatTimestamp "zz" 1 = "Invalid timestamp" :=
  ⟨(c7_format_sentinels "deadbeef" 3).1 (by decide) (by decide),
   (c7_format_sentinels "zz" 1).2.1 (by decide)⟩

theorem hexListVal_lt (l : List Char) : hexListVal l < 16 ^ l.length := by
  suffices h : ∀ a : Nat, l.foldl (fun a c => 16 * a + hexCharVal c) a <
      (a + 1) * 16 ^ l.length by
    simpa [hexListVal] using h 0
  induction l with
  | nil => intro a; simp
  | cons c cs ih =>
    intro a
    simp only [List.foldl_cons, List.length_cons]
    calc cs.foldl (fun a c => 16 * a + hexCharVal c) (16 * a + hexCharVal c) <
        (16 * a + hexCharVal c + 1) * 16 ^ cs.length := ih _
      _ ≤ (16 * (a + 1)) * 16 ^ cs.length :=
        Nat.mul_le_mul_right _ (by have := hexCharVal_lt c; omega)
      _ = (a + 1) * 16 ^ (cs.length + 1) := by ring

theorem isHexDigit_not_special (c : Char) (h : isHexDigit c = true) :
    isJsSpace c = false ∧ c ≠ '-' ∧ c ≠ '+' ∧ c ≠ 'x' ∧ c ≠ 'X' := by
  have hne : ∀ d : Char, isHexDigit d = false → c ≠ d := by
    intro d hd he
    rw [he, hd] at h
    exact absurd h (by simp)
  refine ⟨?_, hne '-' (by decide), hne '+' (by decide),
    hne 'x' (by decide), hne 'X' (by decide)⟩
  have h1 := hne ' ' (by decide)
  have h2 := hne '\t' (by decide)
  have h3 := hne '\n' (by decide)
  have h4 := hne '\r' (by decide)
  have h5 := hne (Char.ofNat 11) (by decide)
  have h6 := hne (Char.ofNat 12) (by decide)
  simp [isJsSpace, h1, h2, h3, h4, h5, h6]

theorem jsParseIntHex_of_hex (s : String) (hne : s.data ≠ [])
    (hhex : ∀ c ∈ s.data, isHexDigit c = true) :
    jsParseIntHex s = some ((hexListVal s.data : Nat) : Int) := by
  obtain ⟨c, cs, hcons⟩ := List.exists_cons_of_ne_nil hne
  have hc : isHexDigit c = true := hhex c (by rw [hcons]; exact List.mem_cons_self c cs)
  obtain ⟨hws, hm, hp, -, -⟩ := isHexDigit_not_special c hc
  have hzx : cs.head? ≠ some 'x' := by
    cases cs with
    | nil => simp
    | cons d ds =>
      have hd : isHexDigit d = true := hhex d (by rw [hcons]; simp)
      obtain ⟨-, -, -, hdx, -⟩ := isHexDigit_not_special d hd
      simp [hdx]
  have hzX : cs.head? ≠ some 'X' := by
    cases cs with
    | nil => simp
    | cons d ds =>
      have hd : isHexDigit d = true := hhex d (by rw [hcons]; simp)
      obtain ⟨-, -, -, -, hdX⟩ := isHexDigit_not_special d hd
      simp [hdX]
  have htake : (c :: cs).takeWhile isHexDigit = c :: cs :=
    List.takeWhile_eq_self_iff.mpr (by rw [← hcons]; exact hhex)
  simp [jsParseIntHex, hcons, List.dropWhile_cons, hws, hm, hp, hzx, hzX, htake]

theorem jsSubstring_concat3 (lo mid hi : String)
    (hlo : lo.length = 8) (hmid : mid.length = 4) (hhi : hi.length = 4) :
    jsSubstring (lo ++ "-" ++ mid ++ "-" ++ hi) 0 8 = lo ∧
    jsSubstring (lo ++ "-" ++ mid ++ "-" ++ hi) 9 13 = mid ∧
    jsSubstring (lo ++ "-" ++ mid ++ "-" ++ hi) 14 18 = hi := by
  have hlo' : lo.data.length = 8 := hlo
  have hmid' : mid.data.length = 4 := hmid
  have hhi' : hi.data.length = 4 := hhi
  have hd1 : (lo ++ "-" ++ mid ++ "-" ++ hi).data =
      lo.data ++ ('-' :: (mid.data ++ '-' :: hi.data)) := by
    simp [String.data_append]
  have hL1 : lo.data ++ '-' :: (mid.data ++ '-' :: hi.data) =
      (lo.data ++ ['-']) ++ (mid.data ++ '-' :: hi.data) :=
    List.append_cons _ _ _
  have hL2 : (lo.data ++ ['-']) ++ (mid.data ++ '-' :: hi.data) =
      ((lo.data ++ ['-']) ++ (mid.data ++ ['-'])) ++ hi.data := by
    rw [List.append_cons mid.data '-' hi.data, ← List.append_assoc]
  have hlen : (lo ++ "-" ++ mid ++ "-" ++ hi).data.length = 18 := by
    rw [hd1]
    simp [hlo', hmid', hhi']
  refine ⟨?_, ?_, ?_⟩
  · unfold jsSubstring
    rw [hlen]
    norm_num
    rw [List.take_left' hlo']
  · unfold jsSubstring
    rw [hlen]
    norm_num
    rw [hL1, List.drop_left' (by simp [hlo']), List.take_left' hmid']
  · unfold jsSubstring
    rw [hlen]
    norm_num
    rw [hL1, hL2, List.drop_left' (by simp [hlo', hmid']),
      List.take_of_length_le (le_of_eq hhi')]

theorem int_lor_shift_cast (a b c : Nat) :
    Int.lor (Int.lor ((a : Int) <<< 48) ((b : Int) <<< 32)) (c : Int) =
      (((a <<< 48 ||| b <<< 32) ||| c : Nat) : Int) := by
  have s48 : ((a : Int) <<< (48 : Int)) = ((a <<< 48 : Nat) : Int) :=
    Int.shiftLeft_coe_nat a 48
  have s32 : ((b : Int) <<< (32 : Int)) = ((b <<< 32 : Nat) : Int) :=
    Int.shiftLeft_coe_nat b 32
  rw [s48, s32]
  rfl

theorem lor_bound_60 (a b c : Nat) (ha : a < 4096) (hb : b < 65536)
    (hc : c < 4294967296) : (a <<< 48 ||| b <<< 32) ||| c < 2 ^ 60 := by
  have h1 : a <<< 48 < 2 ^ 60 := by
    rw [Nat.shiftLeft_eq]
    calc a * 2 ^ 48 < 4096 * 2 ^ 48 :=
          (mul_lt_mul_right (by norm_num : (0 : Nat) < 2 ^ 48)).mpr ha
      _ = 2 ^ 60 := by norm_num
  have h2 : b <<< 32 < 2 ^ 60 := by
    rw [Nat.shiftLeft_eq]
    calc b * 2 ^ 32 < 65536 * 2 ^ 32 :=
          (mul_lt_mul_right (by norm_num : (0 : Nat) < 2 ^ 32)).mpr hb
      _ ≤ 2 ^ 60 := by norm_num
  have h3 : c < 2 ^ 60 := lt_of_lt_of_le hc (by norm_num)
  exact Nat.bitwise_lt_two_pow (Nat.bitwise_lt_two_pow h1 h2) h3

set_option maxHeartbeats 1000000 in
/-- C6: for version 1 the formatter parses the hyphen-joined raw string
into its time-low, time-mid and time-hi hex groups, masks time-hi to its
low 12 bits, recombines (time-hi-masked shifted by 48) or (time-mid
shifted by 32) or time-low in exact integer arithmetic, subtracts the
fixed epoch offset 122192928000000000, truncating-divides by 10000 and
renders the resulting Unix milliseconds as an ISO-8601 UTC instant. -/
theorem c6_format_v1_timestamp (lo mid hi : String)
    (hlo : lo.length = 8) (hmid : mid.length = 4) (hhi : hi.length = 4)
    (hlohex : ∀ c ∈ lo.data, isHexDigit c = true)
    (hmidhex : ∀ c ∈ mid.data, isHexDigit c = true)
    (hhihex : ∀ c ∈ hi.data, isHexDigit c = true) :
    formatTimestamp (lo ++ "-" ++ mid ++ "-" ++ hi) 1 =
      jsToISOString
        ((Int.lor (Int.lor (((hexListVal hi.data &&& 0xfff : Nat) : Int) <<< 48)
            (((hexListVal mid.data : Nat) : Int) <<< 32))
            ((hexListVal lo.data : Nat) : Int) -
          122192928000000000).tdiv 10000) := by
  have hlone : lo.data ≠ [] := by
    intro h0
    have h8 : lo.data.length = 8 := hlo
    rw [h0] at h8
    simp at h8
  have hmidne : mid.data ≠ [] := by
    intro h0
    have h4 : mid.data.length = 4 := hmid
    rw [h0] at h4
    simp at h4
  have hhine : hi.data ≠ [] := by
    intro h0
    have h4 : hi.data.length = 4 := hhi
    rw [h0] at h4
    simp at h4
  obtain ⟨e1, e2, e3⟩ := jsSubstring_concat3 lo mid hi hlo hmid hhi
  have pl := jsParseIntHex_of_hex lo hlone hlohex
  have pm := jsParseIntHex_of_hex mid hmidne hmidhex
  have ph := jsParseIntHex_of_hex hi hhine hhihex
  have hbhi : hexListVal hi.data < 65536 := by
    have h := hexListVal_lt hi.data
    rw [show hi.data.length = 4 from hhi] at h
    norm_num at h
    exact h
  have hbmid : hexListVal mid.data < 65536 := by
    have h := hexListVal_lt mid.data
    rw [show mid.data.length = 4 from hmid] at h
    norm_num at h
    exact h
  have hblo : hexListVal lo.data < 4294967296 := by
    have h := hexListVal_lt lo.data
    rw [show lo.data.length = 8 from hlo] at h
    norm_num at h
    exact h
  have hmask : jsAndMask0xfff (some ((hexListVal hi.data : Nat) : Int)) =
      hexListVal hi.data &&& 0xfff := by
    simp only [jsAndMask0xfff]
    have he : Int.emod ((hexListVal hi.data : Nat) : Int) 4294967296 =
        ((hexListVal hi.data : Nat) : Int) % 4294967296 := rfl
    rw [he]
    congr 1
    omega
  have hrange : ((Int.lor (Int.lor (((hexListVal hi.data &&& 0xfff : Nat) : Int) <<< 48)
      (((hexListVal mid.data : Nat) : Int) <<< 32)) ((hexListVal lo.data : Nat) : Int) -
      122192928000000000).tdiv 10000).natAbs ≤ jsDateRange := by
    rw [int_lor_shift_cast]
    have hN := lor_bound_60 (hexListVal hi.data &&& 0xfff) (hexListVal mid.data)
      (hexListVal lo.data) (lt_of_le_of_lt Nat.and_le_right (by norm_num)) hbmid hblo
    rw [Int.natAbs_tdiv, show ((10000 : Int)).natAbs = 10000 from rfl]
    norm_num at hN
    have hq : (((((hexListVal hi.data &&& 0xfff) <<< 48 |||
        hexListVal mid.data <<< 32) ||| hexListVal lo.data : Nat) : Int) -
        122192928000000000).natAbs ≤ 1152921504606846976 := by omega
    unfold jsDateRange
    exact le_trans (Nat.div_le_div_right hq) (by norm_num)
  have hiso : jsDateToISO ((Int.lor (Int.lor (((hexListVal hi.data &&& 0xfff : Nat) : Int) <<< 48)
      (((hexListVal mid.data : Nat) : Int) <<< 32)) ((hexListVal lo.data : Nat) : Int) -
      122192928000000000).tdiv 10000) =
      some (jsToISOString ((Int.lor (Int.lor (((hexListVal hi.data &&& 0xfff : Nat) : Int) <<< 48)
      (((hexListVal mid.data : Nat) : Int) <<< 32)) ((hexListVal lo.data : Nat) : Int) -
      122192928000000000).tdiv 10000)) := by
    unfold jsDateToISO
    rw [if_pos hrange]
  have htry : formatTimestampTry (lo ++ "-" ++ mid ++ "-" ++ hi) 1 =
      some (some (jsToISOString
        ((Int.lor (Int.lor (((hexListVal hi.data &&& 0xfff : Nat) : Int) <<< 48)
            (((hexListVal mid.data : Nat) : Int) <<< 32))
            ((hexListVal lo.data : Nat) : Int) -
          122192928000000000).tdiv 10000))) := by
    simp only [formatTimestampTry, eq_self_iff_true, ite_true,
      e1, e2, e3, pl, pm, ph, jsBigIntOfNumber, hmask, hiso]
  unfold formatTimestamp
  rw [htry]

/-- C6 witness: the raw string holding the tick count of the instant
2021-01-01T00:00:00.000Z formats back to exactly that ISO string. -/
theorem c6_format_v1_timestamp_witness :
    formatTimestamp "4a784000-4bc4-11eb" 1 = "2021-01-01T00:00:00.000Z" := by
  have e : ("4a784000-4bc4-11eb" : String) =
      ("4a784000" : String) ++ "-" ++ "4bc4" ++ "-" ++ "11eb" := by decide
  rw [e, c6_format_v1_timestamp "4a784000" "4bc4" "11eb" (by decide) (by decide)
    (by decide) (by decide) (by decide) (by decide)]
  decide

end UUIDPlayground
